import Mathlib

/-!
Shallow embedding of the kmyth TPM 2.0 authorization-session core and its
ECDH/HKDF companion, checked against the repository's natural-language
specification.

Byte strings are modelled as `List Nat`.  The cryptographic primitive
provider (hashing, HMAC, ECDH, HKDF) is an external collaborator of the
core (OpenSSL / the TPM), so hashes and HMACs are modelled as ideal
(injective, fixed-output-length) functions, and the fallible OpenSSL EVP
steps are modelled as explicit provider records.
-/

namespace Kmyth

/-- Byte strings of the embedding. -/
abbrev Bytes := List Nat

/-- Hash algorithms admitted for a session (`TPMI_ALG_HASH` values used by
the spec: sha1 / sha256 / sha384 / sha512). -/
inductive HashAlg where
  | sha1
  | sha256
  | sha384
  | sha512
  deriving DecidableEq

/-- Output length, in bytes, of each supported hash algorithm. -/
def hashLen : HashAlg → Nat
  | .sha1 => 20
  | .sha256 => 32
  | .sha384 => 48
  | .sha512 => 64

/-- Injective encoding of a byte string into a single natural number,
used to build the ideal (collision-free) hash model. -/
def encodeBytes : Bytes → Nat
  | [] => 0
  | b :: rest => Nat.pair b (encodeBytes rest) + 1

/-- Ideal model of the crypto provider's hash primitive: collision-free and
of the correct output length for the selected algorithm. -/
def idealHash (alg : HashAlg) (msg : Bytes) : Bytes :=
  (encodeBytes msg + 1) :: List.replicate (hashLen alg - 1) 0

/-- Ideal model of the crypto provider's keyed-hash (HMAC) primitive. -/
def idealHmac (alg : HashAlg) (key msg : Bytes) : Bytes :=
  idealHash alg (Nat.pair (encodeBytes key) (encodeBytes msg) :: [])

/-- Error kinds surfaced by the modelled core (spec section 7 taxonomy,
plus one tag per distinct failure exit of the embedded C functions). -/
inductive KmythError where
  | ProtocolViolation
  | KdfConfiguration
  | InvalidPeerKey
  | EcdhCtxCreate
  | EcdhDeriveInit
  | EcdhSizeQuery
  | EcdhAlloc
  | EcdhDeriveFailed
  | HkdfCtxCreate
  | HkdfInit
  | HkdfSetMd
  | HkdfSetSalt
  | HkdfSetKey
  | HkdfAddInfo
  | HkdfDerive
  | SecretTooLong
  | InfoTooLong
  | AllocKey1
  | AllocKey2
  deriving DecidableEq

/-- The authorization-session container (`SESSION` struct of
`src/include/tpm/tpm2_interface.h`), restricted to the fields the
embedded operations read or write. -/
structure SESSION where
  tpmKey : Nat
  bind : Nat
  authHash : HashAlg
  sessionHandle : Nat
  nonceTPM : Bytes
  sessionKey : Bytes
  authValueBind : Bytes
  nonceNewer : Bytes
  nonceOlder : Bytes
  deriving DecidableEq

/-- Incremental HMAC computation state, mirroring the
HMAC init / update / final calls the C implementation issues. -/
structure HmacCtx where
  alg : HashAlg
  key : Bytes
  acc : Bytes

/-- Start an HMAC computation with the given key. -/
def hmacInit (alg : HashAlg) (key : Bytes) : HmacCtx :=
  ⟨alg, key, []⟩

/-- Feed more message bytes into an HMAC computation. -/
def hmacUpdate (c : HmacCtx) (data : Bytes) : HmacCtx :=
  { c with acc := c.acc ++ data }

/-- Finish an HMAC computation, producing the tag. -/
def hmacFinal (c : HmacCtx) : Bytes :=
  idealHmac c.alg c.key c.acc

/-- Incremental message-digest state, mirroring the EVP digest
init / update / final calls the C implementation issues. -/
structure DigestCtx where
  alg : HashAlg
  acc : Bytes

/-- Start a digest computation. -/
def digestInit (alg : HashAlg) : DigestCtx :=
  ⟨alg, []⟩

/-- Feed more bytes into a digest computation. -/
def digestUpdate (c : DigestCtx) (data : Bytes) : DigestCtx :=
  { c with acc := c.acc ++ data }

/-- Finish a digest computation. -/
def digestFinal (c : DigestCtx) : Bytes :=
  idealHash c.alg c.acc

/-- Big-endian 4-byte encoding of an unsigned 32-bit value. -/
def u32be (x : Nat) : Bytes :=
  [x / 16777216 % 256, x / 65536 % 256, x / 256 % 256, x % 256]

/-- Modelled from the spec: `compute_authHMAC` is declared in
`src/include/tpm/tpm2_interface.h` but its implementation
(`tpm2_interface.c`) is not in the repository snapshot.  Per spec section
4.4 it keys an HMAC with `sessionKey ‖ authValue` and feeds it
`pHash ‖ nonceNewer ‖ nonceOlder ‖ sessionAttributes` (one octet),
via incremental HMAC update calls. -/
def compute_authHMAC (auth_session : SESSION) (auth_pHash : Bytes)
    (auth_authValue : Bytes) (auth_sessionAttributes : Nat) : Bytes :=
  let hmacKey := auth_session.sessionKey ++ auth_authValue
  let c0 := hmacInit auth_session.authHash hmacKey
  let c1 := hmacUpdate c0 auth_pHash
  let c2 := hmacUpdate c1 auth_session.nonceNewer
  let c3 := hmacUpdate c2 auth_session.nonceOlder
  let c4 := hmacUpdate c3 [auth_sessionAttributes]
  hmacFinal c4

/-- Modelled from the spec: `rollNonces` is declared in
`src/include/tpm/tpm2_interface.h` but its implementation is not in the
repository snapshot.  Per spec section 4.2, `roll(incomingTpmNonce)` sets
`nonceOlder = nonceNewer` then `nonceNewer = incomingTpmNonce`; both nonce
values must equal the session authHash output length, otherwise it fails
with `ProtocolViolation`. -/
def rollNonces (session : SESSION) (newNonce : Bytes) :
    Except KmythError SESSION :=
  if newNonce.length = hashLen session.authHash ∧
      session.nonceNewer.length = hashLen session.authHash then
    Except.ok { session with
                  nonceOlder := session.nonceNewer
                  nonceNewer := newNonce }
  else
    Except.error KmythError.ProtocolViolation

/-- Modelled from the spec: `create_authVal` is declared in
`src/include/tpm/tpm2_interface.h` but its implementation is not in the
repository snapshot.  Per spec section 4.1, `derive(authBytes, hashAlg)`
returns the all-zero digest of the algorithm's output length when the
auth bytes are empty or absent, and the hash of the bytes otherwise. -/
def create_authVal (hashAlg : HashAlg) (auth_bytes : Bytes) : Bytes :=
  if auth_bytes.length = 0 then
    List.replicate (hashLen hashAlg) 0
  else
    idealHash hashAlg auth_bytes

/-- Modelled from the spec: `compute_cpHash` is declared in
`src/include/tpm/tpm2_interface.h` but its implementation is not in the
repository snapshot.  Per spec section 4.3 the command-parameter hash is
`H(u32be(code) ‖ entityName ‖ params)` under the session's authHash,
computed via incremental digest-update calls. -/
def compute_cpHash (alg : HashAlg) (cmdCode : Nat)
    (authEntityName : Bytes) (cmdParams : Bytes) : Bytes :=
  let c0 := digestInit alg
  let c1 := digestUpdate c0 (u32be cmdCode)
  let c2 := digestUpdate c1 authEntityName
  let c3 := digestUpdate c2 cmdParams
  digestFinal c3

/-- Modelled from the spec: the pure policy-OR digest combination behind
`apply_policy_or` (declared in `src/include/tpm/tpm2_interface.h`; the
implementation is not in the repository snapshot).  Per spec sections 4.5
and 6, `CombinePolicyOr(alg, branch1, branch2)` is
`H(0x00000171 ‖ branch1 ‖ branch2)` with `TPM_CC_PolicyOR = 0x00000171`
encoded big-endian. -/
def CombinePolicyOr (alg : HashAlg) (branch1 branch2 : Bytes) : Bytes :=
  idealHash alg (u32be 0x00000171 ++ branch1 ++ branch2)

/-- Largest value of a C `int`, used by the guards in
`compute_ecdh_session_key`. -/
def INT_MAX : Nat := 2147483647

/-- Final state of the `compute_ecdh_shared_secret` out-parameters:
`ret` is the function's return, `buf` the state of `*shared_secret`
(`none` = never allocated, or cleared and freed), `len` the state of
`*shared_secret_len`. -/
structure EcdhOut where
  ret : Except KmythError Unit
  buf : Option Bytes
  len : Nat

/-- Model of the OpenSSL EVP collaborator used by
`compute_ecdh_shared_secret`: one Boolean per fallible library step, the
length reported by the sizing call, and the bytes written by the final
derive call. -/
structure EcdhProvider where
  ctxNewOk : Bool
  deriveInitOk : Bool
  setPeerOk : Bytes → Bytes → Bool
  sizeQueryOk : Bool
  sharedLen : Bytes → Bytes → Nat
  allocOk : Bool
  finalDeriveOk : Bool
  shared : Bytes → Bytes → Bytes

/-- `compute_ecdh_shared_secret` from `ecdh_util.c` (second part of
`src/include/tpm/tpm2_interface.h`): creates a derivation context from the
local key, sets the peer public key, queries the required secret size,
allocates the buffer, and derives; on final-derive failure it clears and
frees the buffer and zeroes the length out-parameter. -/
def compute_ecdh_shared_secret (P : EcdhProvider)
    (local_eph_keypair peer_eph_pubkey : Bytes) : EcdhOut :=
  if P.ctxNewOk = false then
    ⟨Except.error KmythError.EcdhCtxCreate, none, 0⟩
  else if P.deriveInitOk = false then
    ⟨Except.error KmythError.EcdhDeriveInit, none, 0⟩
  else if P.setPeerOk local_eph_keypair peer_eph_pubkey = false then
    ⟨Except.error KmythError.InvalidPeerKey, none, 0⟩
  else if P.sizeQueryOk = false then
    ⟨Except.error KmythError.EcdhSizeQuery, none, 0⟩
  else if P.sharedLen local_eph_keypair peer_eph_pubkey = 0 then
    ⟨Except.error KmythError.EcdhSizeQuery, none,
      P.sharedLen local_eph_keypair peer_eph_pubkey⟩
  else if P.allocOk = false then
    ⟨Except.error KmythError.EcdhAlloc, none,
      P.sharedLen local_eph_keypair peer_eph_pubkey⟩
  else if P.finalDeriveOk = false then
    ⟨Except.error KmythError.EcdhDeriveFailed, none, 0⟩
  else
    ⟨Except.ok (), some (P.shared local_eph_keypair peer_eph_pubkey),
      (P.shared local_eph_keypair peer_eph_pubkey).length⟩

/-- Model of the OpenSSL EVP HKDF collaborator used by
`compute_ecdh_session_key`: one Boolean per fallible library step, plus
the HKDF function itself taking salt, input key material and info. -/
structure HkdfProvider where
  ctxNewOk : Bool
  deriveInitOk : Bool
  setMdOk : Bool
  setSaltOk : Bool
  setKeyOk : Bool
  addInfoOk : Bool
  deriveOk : Bool
  alloc1Ok : Bool
  alloc2Ok : Bool
  hkdf : Bytes → Bytes → Bytes → Bytes

/-- The 5-byte ASCII literal salt `kmyth` passed to
`EVP_PKEY_CTX_set1_hkdf_salt` by `compute_ecdh_session_key`. -/
def kmythSalt : Bytes := [0x6b, 0x6d, 0x79, 0x74, 0x68]

/-- `compute_ecdh_session_key` from `ecdh_util.c` (second part of
`src/include/tpm/tpm2_interface.h`): guards the secret and info lengths
against `INT_MAX`, runs HKDF with salt `"kmyth"`, ikm the shared secret
and info `msg1 ‖ msg2`, then returns the first `keyLen` bytes as session
key 1 and the next `keyLen` bytes as session key 2, failing with the
KDF-configuration error when the HKDF output is shorter than
`2 * keyLen`. -/
def compute_ecdh_session_key (P : HkdfProvider) (keyLen : Nat)
    (secret_in msg1_in msg2_in : Bytes) :
    Except KmythError (Bytes × Bytes) :=
  if secret_in.length > INT_MAX then
    Except.error KmythError.SecretTooLong
  else if P.ctxNewOk = false then
    Except.error KmythError.HkdfCtxCreate
  else if P.deriveInitOk = false then
    Except.error KmythError.HkdfInit
  else if P.setMdOk = false then
    Except.error KmythError.HkdfSetMd
  else if P.setSaltOk = false then
    Except.error KmythError.HkdfSetSalt
  else if P.setKeyOk = false then
    Except.error KmythError.HkdfSetKey
  else if msg1_in.length + msg2_in.length > INT_MAX then
    Except.error KmythError.InfoTooLong
  else if P.addInfoOk = false then
    Except.error KmythError.HkdfAddInfo
  else if P.deriveOk = false then
    Except.error KmythError.HkdfDerive
  else
    let kdf_out := P.hkdf kmythSalt secret_in (msg1_in ++ msg2_in)
    if 2 * keyLen > kdf_out.length then
      Except.error KmythError.KdfConfiguration
    else if P.alloc1Ok = false then
      Except.error KmythError.AllocKey1
    else if P.alloc2Ok = false then
      Except.error KmythError.AllocKey2
    else
      Except.ok (kdf_out.take keyLen, (kdf_out.drop keyLen).take keyLen)

end Kmyth

namespace Unseal

/-- Command-line options of `src/src/main/unseal.c` as delivered by one
`getopt_long` step; `unknown` is any option `getopt_long` does not
recognise (its `?` return, handled by the `default` case). -/
inductive CmdOpt where
  | auth (s : String)
  | input (p : String)
  | output (p : String)
  | ownerAuth (s : String)
  | force
  | policyOr
  | stdoutOpt
  | verbose
  | help
  | unknown
  deriving DecidableEq

/-- The local variables of `main` that the option-parsing loop fills in. -/
structure UnsealConfig where
  inPath : Option String
  outPath : Option String
  stdout_flag : Bool
  authString : Option String
  ownerAuthPasswd : String
  forceOverwrite : Bool
  bool_policy_or : Bool
  deriving DecidableEq

/-- Initial values of `main`'s locals before option parsing. -/
def initialConfig : UnsealConfig :=
  ⟨none, none, false, none, "", false, false⟩

/-- Observable outcome of a run of `main`: process exit code, whether
`kmyth_clear` was invoked on `authString` and on `ownerAuthPasswd` before
returning, whether `tpm2_kmyth_unseal_file` was called, and whether
`write_bytes_to_file` was called on the output path. -/
structure MainResult where
  code : Nat
  authCleared : Bool
  ownerCleared : Bool
  unsealCalled : Bool
  wroteOutput : Bool
  deriving DecidableEq

/-- Outcome of the option-parsing loop: an early `return` from inside the
`switch`, or the parsed configuration. -/
inductive ParseOutcome where
  | exit (r : MainResult)
  | parsed (c : UnsealConfig)
  deriving DecidableEq

/-- The `getopt_long` loop of `main` (`unseal.c` lines 74-112): options
are applied left to right; `-h` prints usage and returns 0 and an
unrecognised option returns 1, in both cases without any `kmyth_clear`
call. -/
def parseLoop (c : UnsealConfig) : List CmdOpt → ParseOutcome
  | [] => ParseOutcome.parsed c
  | o :: rest =>
    match o with
    | CmdOpt.auth s => parseLoop { c with authString := some s } rest
    | CmdOpt.input p => parseLoop { c with inPath := some p } rest
    | CmdOpt.output p => parseLoop { c with outPath := some p } rest
    | CmdOpt.ownerAuth s => parseLoop { c with ownerAuthPasswd := s } rest
    | CmdOpt.force => parseLoop { c with forceOverwrite := true } rest
    | CmdOpt.policyOr => parseLoop { c with bool_policy_or := true } rest
    | CmdOpt.stdoutOpt => parseLoop { c with stdout_flag := true } rest
    | CmdOpt.verbose => parseLoop c rest
    | CmdOpt.help => ParseOutcome.exit ⟨0, false, false, false, false⟩
    | CmdOpt.unknown => ParseOutcome.exit ⟨1, false, false, false, false⟩

/-- External collaborators of `main`: path validation helpers, the
`stat` probe for an existing output file, and the top-level unseal call
(`true` means the C function returned nonzero, i.e. failed). -/
structure UnsealEnv where
  inputPathInvalid : String → Bool
  outputPathInvalid : String → Bool
  fileExists : String → Bool
  unsealFails : Bool

/-- The body of `main` after option parsing (`unseal.c` lines 114-205):
input/output path validation, the overwrite guard, the
`tpm2_kmyth_unseal_file` call, clearing of `authString` and
`ownerAuthPasswd`, and the final output step. -/
def mainPost (env : UnsealEnv) (c : UnsealConfig) : MainResult :=
  if c.inPath = none ∨ (c.outPath = none ∧ c.stdout_flag = false) then
    ⟨1, true, true, false, false⟩
  else if env.inputPathInvalid (c.inPath.getD "") = true then
    ⟨1, true, true, false, false⟩
  else if c.stdout_flag = false ∧
      env.outputPathInvalid (c.outPath.getD "") = true then
    ⟨1, true, true, false, false⟩
  else if c.stdout_flag = false ∧ c.forceOverwrite = false ∧
      env.fileExists (c.outPath.getD "") = true then
    ⟨1, true, true, false, false⟩
  else if env.unsealFails = true then
    ⟨1, true, true, true, false⟩
  else if c.stdout_flag = true then
    ⟨0, true, true, true, false⟩
  else
    ⟨0, true, true, true, true⟩

/-- `main` of `src/src/main/unseal.c`: with no command-line arguments it
prints usage and returns 0; otherwise it runs the option-parsing loop and
then the post-parse body. -/
def main (env : UnsealEnv) (opts : List CmdOpt) : MainResult :=
  match opts with
  | [] => ⟨0, false, false, false, false⟩
  | _ :: _ =>
    match parseLoop initialConfig opts with
    | ParseOutcome.exit r => r
    | ParseOutcome.parsed c => mainPost env c

end Unseal

namespace Kmyth

/-- The byte-string encoding underlying the ideal hash is injective. -/
theorem encodeBytes_inj : ∀ {a b : Bytes}, encodeBytes a = encodeBytes b → a = b := by
  intro a
  induction a with
  | nil =>
    intro b h
    cases b with
    | nil => rfl
    | cons y ys => simp [encodeBytes] at h
  | cons x xs ih =>
    intro b h
    cases b with
    | nil => simp [encodeBytes] at h
    | cons y ys =>
      simp only [encodeBytes, Nat.add_right_cancel_iff, Nat.pair_eq_pair] at h
      rw [h.1, ih h.2]

/-- The ideal hash has the advertised output length. -/
theorem idealHash_length (alg : HashAlg) (msg : Bytes) :
    (idealHash alg msg).length = hashLen alg := by
  cases alg <;> simp [idealHash, hashLen]

/-- The ideal hash is collision-free for a fixed algorithm. -/
theorem idealHash_inj {alg : HashAlg} {m1 m2 : Bytes}
    (h : idealHash alg m1 = idealHash alg m2) : m1 = m2 := by
  simp only [idealHash, List.cons.injEq, Nat.add_right_cancel_iff] at h
  exact encodeBytes_inj h.1

/-- Claim C1: for every session, parameter hash, authorization value and
session-attributes byte, `compute_authHMAC` equals
`HMAC_authHash(sessionKey ‖ authValue, pHash ‖ nonceNewer ‖ nonceOlder ‖ a)`.
Either key operand may be the empty byte string (the quantification over
`s` and `av` includes zero-length values), and the single routine is the
one used for both the command and the response halves of an exchange. -/
theorem compute_authHMAC_spec (s : SESSION) (pHash av : Bytes) (a : Nat) :
    compute_authHMAC s pHash av a =
      idealHmac s.authHash (s.sessionKey ++ av)
        (pHash ++ s.nonceNewer ++ s.nonceOlder ++ [a]) := by
  simp [compute_authHMAC, hmacInit, hmacUpdate, hmacFinal, List.append_assoc]

/-- Claim C2: after a successful nonce roll the session's `nonceOlder`
equals the pre-call `nonceNewer` and its `nonceNewer` equals the incoming
TPM nonce; the roll fails with `ProtocolViolation` if either nonce's
length differs from the session authHash output length. -/
theorem rollNonces_spec (s : SESSION) (n : Bytes) :
    (∀ s', rollNonces s n = Except.ok s' →
      s'.nonceOlder = s.nonceNewer ∧ s'.nonceNewer = n) ∧
    (¬(n.length = hashLen s.authHash ∧
        s.nonceNewer.length = hashLen s.authHash) →
      rollNonces s n = Except.error KmythError.ProtocolViolation) := by
  constructor
  · intro s' h
    unfold rollNonces at h
    split at h
    · simp only [Except.ok.injEq] at h
      subst h
      exact ⟨rfl, rfl⟩
    · simp at h
  · intro h
    unfold rollNonces
    rw [if_neg h]

/-- Witness for `rollNonces_spec`: a concrete sha1 session rolled with a
20-byte nonce, and a concrete roll rejected for a wrong-length nonce. -/
theorem rollNonces_spec_witness :
    ((⟨0, 0, HashAlg.sha1, 7, [], [], [], List.replicate 20 3,
        List.replicate 20 1⟩ : SESSION).nonceOlder = List.replicate 20 1 ∧
      (⟨0, 0, HashAlg.sha1, 7, [], [], [], List.replicate 20 3,
        List.replicate 20 1⟩ : SESSION).nonceNewer = List.replicate 20 3) ∧
    rollNonces ⟨0, 0, HashAlg.sha1, 7, [], [], [], [1], []⟩ [9] =
      Except.error KmythError.ProtocolViolation :=
  ⟨(rollNonces_spec
      ⟨0, 0, HashAlg.sha1, 7, [], [], [], List.replicate 20 1,
        List.replicate 20 2⟩ (List.replicate 20 3)).1
      ⟨0, 0, HashAlg.sha1, 7, [], [], [], List.replicate 20 3,
        List.replicate 20 1⟩ rfl,
    (rollNonces_spec ⟨0, 0, HashAlg.sha1, 7, [], [], [], [1], []⟩ [9]).2
      (by decide)⟩

/-- Claim C3: `create_authVal` returns the all-zero digest of the
algorithm's output length when the auth bytes have length 0, and the hash
of the bytes when they are non-empty. -/
theorem create_authVal_spec (alg : HashAlg) (b : Bytes) :
    (b.length = 0 → create_authVal alg b = List.replicate (hashLen alg) 0) ∧
    (0 < b.length → create_authVal alg b = idealHash alg b) := by
  constructor
  · intro h
    unfold create_authVal
    rw [if_pos h]
  · intro h
    unfold create_authVal
    rw [if_neg (by omega)]

/-- Witness for `create_authVal_spec`: the empty and a one-byte auth
string under sha256. -/
theorem create_authVal_spec_witness :
    create_authVal HashAlg.sha256 [] =
      List.replicate (hashLen HashAlg.sha256) 0 ∧
    create_authVal HashAlg.sha256 [7] = idealHash HashAlg.sha256 [7] :=
  ⟨(create_authVal_spec HashAlg.sha256 []).1 rfl,
    (create_authVal_spec HashAlg.sha256 [7]).2 (by decide)⟩

/-- Claim C6: the command-parameter hash equals
`H(u32be(code) ‖ entityName ‖ params)` under the chosen session hash and
its length equals the hash algorithm's output length.  Determinism in
`(c, n, P)` is definitional: `compute_cpHash` is a total function of
exactly those arguments. -/
theorem compute_cpHash_spec (alg : HashAlg) (c : Nat) (n P : Bytes) :
    compute_cpHash alg c n P = idealHash alg (u32be c ++ n ++ P) ∧
    (compute_cpHash alg c n P).length = hashLen alg := by
  have h1 : compute_cpHash alg c n P = idealHash alg (u32be c ++ n ++ P) := by
    simp [compute_cpHash, digestInit, digestUpdate, digestFinal,
      List.append_assoc]
  exact ⟨h1, by rw [h1]; exact idealHash_length alg _⟩

/-- Claim C5: the combined policy-OR digest equals
`H(0x00000171 ‖ b1 ‖ b2)` with the command code big-endian, and the
combination is not commutative on distinct policy digests (byte strings
of the algorithm's digest length). -/
theorem CombinePolicyOr_spec (alg : HashAlg) (a b : Bytes) :
    CombinePolicyOr alg a b = idealHash alg (u32be 0x00000171 ++ a ++ b) ∧
    (a.length = hashLen alg → b.length = hashLen alg → a ≠ b →
      CombinePolicyOr alg a b ≠ CombinePolicyOr alg b a) := by
  refine ⟨rfl, ?_⟩
  intro ha hb hne h
  have h1 : u32be 0x00000171 ++ a ++ b = u32be 0x00000171 ++ b ++ a :=
    idealHash_inj h
  rw [List.append_assoc, List.append_assoc] at h1
  have h2 : a ++ b = b ++ a := List.append_cancel_left h1
  have hlen : a.length = b.length := by rw [ha, hb]
  have h3 : a = b := by
    calc a = (a ++ b).take a.length := (List.take_left a b).symm
      _ = (b ++ a).take a.length := by rw [h2]
      _ = (b ++ a).take b.length := by rw [hlen]
      _ = b := List.take_left b a
  exact hne h3

/-- Witness for `CombinePolicyOr_spec`: two distinct 32-byte sha256
policy digests combine order-sensitively. -/
theorem CombinePolicyOr_spec_witness :
    CombinePolicyOr HashAlg.sha256 (List.replicate 32 0)
        (List.replicate 32 1) =
      idealHash HashAlg.sha256
        (u32be 0x00000171 ++ List.replicate 32 0 ++ List.replicate 32 1) ∧
    CombinePolicyOr HashAlg.sha256 (List.replicate 32 0)
        (List.replicate 32 1) ≠
      CombinePolicyOr HashAlg.sha256 (List.replicate 32 1)
        (List.replicate 32 0) :=
  ⟨(CombinePolicyOr_spec HashAlg.sha256 (List.replicate 32 0)
      (List.replicate 32 1)).1,
    (CombinePolicyOr_spec HashAlg.sha256 (List.replicate 32 0)
      (List.replicate 32 1)).2 (by decide) (by decide) (by decide)⟩

end Kmyth

open Kmyth Unseal

/-- Claim C4: whenever `compute_ecdh_session_key` succeeds, the two keys
are the first `keyLen` bytes and the next `keyLen` bytes of the HKDF
output computed with salt the 5-byte ASCII literal `kmyth`, ikm the
shared secret, and info `msg1 ‖ msg2`; both keys have length `keyLen`. -/
theorem compute_ecdh_session_key_ok (P : HkdfProvider) (keyLen : Nat)
    (s m1 m2 k1 k2 : Bytes)
    (h : compute_ecdh_session_key P keyLen s m1 m2 = Except.ok (k1, k2)) :
    k1 = (P.hkdf kmythSalt s (m1 ++ m2)).take keyLen ∧
    k2 = ((P.hkdf kmythSalt s (m1 ++ m2)).drop keyLen).take keyLen ∧
    k1.length = keyLen ∧ k2.length = keyLen := by
  simp only [compute_ecdh_session_key] at h
  by_cases g1 : s.length > INT_MAX
  · rw [if_pos g1] at h
    exact Except.noConfusion h
  rw [if_neg g1] at h
  by_cases g2 : P.ctxNewOk = false
  · rw [if_pos g2] at h
    exact Except.noConfusion h
  rw [if_neg g2] at h
  by_cases g3 : P.deriveInitOk = false
  · rw [if_pos g3] at h
    exact Except.noConfusion h
  rw [if_neg g3] at h
  by_cases g4 : P.setMdOk = false
  · rw [if_pos g4] at h
    exact Except.noConfusion h
  rw [if_neg g4] at h
  by_cases g5 : P.setSaltOk = false
  · rw [if_pos g5] at h
    exact Except.noConfusion h
  rw [if_neg g5] at h
  by_cases g6 : P.setKeyOk = false
  · rw [if_pos g6] at h
    exact Except.noConfusion h
  rw [if_neg g6] at h
  by_cases g7 : m1.length + m2.length > INT_MAX
  · rw [if_pos g7] at h
    exact Except.noConfusion h
  rw [if_neg g7] at h
  by_cases g8 : P.addInfoOk = false
  · rw [if_pos g8] at h
    exact Except.noConfusion h
  rw [if_neg g8] at h
  by_cases g9 : P.deriveOk = false
  · rw [if_pos g9] at h
    exact Except.noConfusion h
  rw [if_neg g9] at h
  by_cases g10 : 2 * keyLen > (P.hkdf kmythSalt s (m1 ++ m2)).length
  · rw [if_pos g10] at h
    exact Except.noConfusion h
  rw [if_neg g10] at h
  by_cases g11 : P.alloc1Ok = false
  · rw [if_pos g11] at h
    exact Except.noConfusion h
  rw [if_neg g11] at h
  by_cases g12 : P.alloc2Ok = false
  · rw [if_pos g12] at h
    exact Except.noConfusion h
  rw [if_neg g12] at h
  simp only [Except.ok.injEq, Prod.mk.injEq] at h
  obtain ⟨hk1, hk2⟩ := h
  subst hk1
  subst hk2
  refine ⟨rfl, rfl, ?_, ?_⟩
  · rw [List.length_take]
    omega
  · rw [List.length_take, List.length_drop]
    omega

/-- Witness for `compute_ecdh_session_key_ok`: a provider whose HKDF
emits 8 bytes, with `keyLen = 2`. -/
theorem compute_ecdh_session_key_ok_witness :
    ([5, 5] : Kmyth.Bytes) = (List.replicate 8 5).take 2 ∧
    ([5, 5] : Kmyth.Bytes) = ((List.replicate 8 5).drop 2).take 2 ∧
    ([5, 5] : Kmyth.Bytes).length = 2 ∧ ([5, 5] : Kmyth.Bytes).length = 2 :=
  compute_ecdh_session_key_ok
    ⟨true, true, true, true, true, true, true, true, true,
      fun _ _ _ => List.replicate 8 5⟩
    2 [1] [2] [3] [5, 5] [5, 5] rfl

/-- Claim C7: if the HKDF output is shorter than `2 * keyLen`, the
session-key derivation fails with the KDF-configuration error (and hence
returns no keys). -/
theorem compute_ecdh_session_key_kdfConfig (P : HkdfProvider)
    (keyLen : Nat) (s m1 m2 : Bytes)
    (hs : s.length ≤ INT_MAX)
    (h2 : P.ctxNewOk = true) (h3 : P.deriveInitOk = true)
    (h4 : P.setMdOk = true) (h5 : P.setSaltOk = true)
    (h6 : P.setKeyOk = true)
    (hm : m1.length + m2.length ≤ INT_MAX)
    (h8 : P.addInfoOk = true) (h9 : P.deriveOk = true)
    (hshort : (P.hkdf kmythSalt s (m1 ++ m2)).length < 2 * keyLen) :
    compute_ecdh_session_key P keyLen s m1 m2 =
      Except.error KmythError.KdfConfiguration := by
  simp only [compute_ecdh_session_key]
  rw [if_neg (by omega)]
  rw [if_neg (by simp [h2])]
  rw [if_neg (by simp [h3])]
  rw [if_neg (by simp [h4])]
  rw [if_neg (by simp [h5])]
  rw [if_neg (by simp [h6])]
  rw [if_neg (by omega)]
  rw [if_neg (by simp [h8])]
  rw [if_neg (by simp [h9])]
  rw [if_pos (by omega)]

/-- Witness for `compute_ecdh_session_key_kdfConfig`: an 8-byte HKDF
output is too short for two 5-byte keys. -/
theorem compute_ecdh_session_key_kdfConfig_witness :
    compute_ecdh_session_key
        ⟨true, true, true, true, true, true, true, true, true,
          fun _ _ _ => List.replicate 8 1⟩
        5 [1] [2] [3] =
      Except.error KmythError.KdfConfiguration :=
  compute_ecdh_session_key_kdfConfig
    ⟨true, true, true, true, true, true, true, true, true,
      fun _ _ _ => List.replicate 8 1⟩
    5 [1] [2] [3] (by decide) rfl rfl rfl rfl rfl (by decide) rfl rfl
    (by decide)

/-- Claim C8: under the OpenSSL EVP contract that a zero-length peer
public key is rejected by the set-peer step, `compute_ecdh_shared_secret`
fails with `InvalidPeerKey` on a zero-length peer key, and on success it
returns the derived shared-secret buffer, which is non-zero-length
(the sizing guard rejects a zero required size, and the final derive
fills exactly the queried size). -/
theorem compute_ecdh_shared_secret_spec (P : EcdhProvider) (lk : Bytes)
    (h1 : P.ctxNewOk = true) (h2 : P.deriveInitOk = true)
    (hpeer : P.setPeerOk lk [] = false)
    (hfill : ∀ p, (P.shared lk p).length = P.sharedLen lk p) :
    (compute_ecdh_shared_secret P lk []).ret =
      Except.error KmythError.InvalidPeerKey ∧
    (∀ p, (compute_ecdh_shared_secret P lk p).ret = Except.ok () →
      compute_ecdh_shared_secret P lk p =
        ⟨Except.ok (), some (P.shared lk p), (P.shared lk p).length⟩ ∧
      0 < (P.shared lk p).length) := by
  constructor
  · simp [compute_ecdh_shared_secret, h1, h2, hpeer]
  · intro p hok
    by_cases hsp : P.setPeerOk lk p = false
    · simp [compute_ecdh_shared_secret, h1, h2, hsp] at hok
    by_cases hsq : P.sizeQueryOk = false
    · simp [compute_ecdh_shared_secret, h1, h2, hsp, hsq] at hok
    by_cases hn0 : P.sharedLen lk p = 0
    · simp [compute_ecdh_shared_secret, h1, h2, hsp, hsq, hn0] at hok
    by_cases hal : P.allocOk = false
    · simp [compute_ecdh_shared_secret, h1, h2, hsp, hsq, hn0, hal] at hok
    by_cases hfd : P.finalDeriveOk = false
    · simp [compute_ecdh_shared_secret, h1, h2, hsp, hsq, hn0, hal,
        hfd] at hok
    constructor
    · simp [compute_ecdh_shared_secret, h1, h2, hsp, hsq, hn0, hal, hfd]
    · have hf := hfill p
      omega

/-- Witness for `compute_ecdh_shared_secret_spec`: an EVP model that
rejects empty peer keys and derives a 4-byte secret. -/
theorem compute_ecdh_shared_secret_spec_witness :
    (compute_ecdh_shared_secret
        ⟨true, true, fun _ p => !p.isEmpty, true, fun _ _ => 4, true, true,
          fun _ _ => [9, 9, 9, 9]⟩ [1] []).ret =
      Except.error KmythError.InvalidPeerKey ∧
    (compute_ecdh_shared_secret
        ⟨true, true, fun _ p => !p.isEmpty, true, fun _ _ => 4, true, true,
          fun _ _ => [9, 9, 9, 9]⟩ [1] [2] =
        ⟨Except.ok (), some [9, 9, 9, 9], 4⟩ ∧
      0 < ([9, 9, 9, 9] : Kmyth.Bytes).length) :=
  ⟨(compute_ecdh_shared_secret_spec
      ⟨true, true, fun _ p => !p.isEmpty, true, fun _ _ => 4, true, true,
        fun _ _ => [9, 9, 9, 9]⟩ [1] rfl rfl rfl (fun _ => rfl)).1,
    (compute_ecdh_shared_secret_spec
      ⟨true, true, fun _ p => !p.isEmpty, true, fun _ _ => 4, true, true,
        fun _ _ => [9, 9, 9, 9]⟩ [1] rfl rfl rfl (fun _ => rfl)).2 [2] rfl⟩

/-- Claim C9 counterexample: the claim says `main` clears the
`authString` and `ownerAuthPasswd` buffers before every error exit, but
the unrecognised-option `default` case of the `getopt_long` switch
(`unseal.c` line 110) returns 1 with no `kmyth_clear` call, reachable
after an auth string was already captured: invoking the front-end with
`-a secret` followed by an unknown option exits with code 1 and neither
buffer cleared. -/
theorem main_unknown_option_no_clear :
    (Unseal.main ⟨fun _ => false, fun _ => false, fun _ => false, false⟩
        [CmdOpt.auth "secret", CmdOpt.unknown]).code = 1 ∧
    (Unseal.main ⟨fun _ => false, fun _ => false, fun _ => false, false⟩
        [CmdOpt.auth "secret", CmdOpt.unknown]).authCleared = false ∧
    (Unseal.main ⟨fun _ => false, fun _ => false, fun _ => false, false⟩
        [CmdOpt.auth "secret", CmdOpt.unknown]).ownerCleared = false :=
  ⟨rfl, rfl, rfl⟩

/-- Claim C9 as amended: `compute_ecdh_shared_secret` clears and frees
the allocated shared-secret buffer and zeroes its length out-parameter
when the final derive fails; and `main` clears the `authString` and
`ownerAuthPasswd` buffers before every exit taken after option parsing
completes (the parsing-stage exits, help and unknown option, perform no
clearing). -/
theorem sensitive_cleanup_amended :
    (∀ (P : EcdhProvider) (lk pk : Bytes),
      P.ctxNewOk = true → P.deriveInitOk = true →
      P.setPeerOk lk pk = true → P.sizeQueryOk = true →
      P.sharedLen lk pk ≠ 0 → P.allocOk = true →
      P.finalDeriveOk = false →
      compute_ecdh_shared_secret P lk pk =
        ⟨Except.error KmythError.EcdhDeriveFailed, none, 0⟩) ∧
    (∀ (env : UnsealEnv) (cfg : UnsealConfig),
      (mainPost env cfg).authCleared = true ∧
      (mainPost env cfg).ownerCleared = true) := by
  constructor
  · intro P lk pk h1 h2 h3 h4 h5 h6 h7
    simp [compute_ecdh_shared_secret, h1, h2, h3, h4, h5, h6, h7]
  · intro env cfg
    constructor
    · unfold mainPost
      repeat' split
      all_goals rfl
    · unfold mainPost
      repeat' split
      all_goals rfl

/-- Witness for `sensitive_cleanup_amended`: a concrete failing final
derive, and a concrete post-parse run of `main`. -/
theorem sensitive_cleanup_amended_witness :
    compute_ecdh_shared_secret
        ⟨true, true, fun _ _ => true, true, fun _ _ => 4, true, false,
          fun _ _ => []⟩ [1] [2] =
      ⟨Except.error KmythError.EcdhDeriveFailed, none, 0⟩ ∧
    ((mainPost ⟨fun _ => false, fun _ => false, fun _ => false, false⟩
        initialConfig).authCleared = true ∧
      (mainPost ⟨fun _ => false, fun _ => false, fun _ => false, false⟩
        initialConfig).ownerCleared = true) :=
  ⟨sensitive_cleanup_amended.1
      ⟨true, true, fun _ _ => true, true, fun _ _ => 4, true, false,
        fun _ _ => []⟩ [1] [2] rfl rfl rfl rfl (by decide) rfl rfl,
    sensitive_cleanup_amended.2
      ⟨fun _ => false, fun _ => false, fun _ => false, false⟩
      initialConfig⟩

/-- Claim C10: in file-output mode (stdout flag not set), when the
force-overwrite flag is not set and the output path names an existing
file, `main` returns 1 without calling `tpm2_kmyth_unseal_file` and
without writing the output file. -/
theorem unseal_no_overwrite (env : UnsealEnv) (o : CmdOpt)
    (rest : List CmdOpt) (cfg : UnsealConfig) (p : String)
    (hparse : parseLoop initialConfig (o :: rest) = ParseOutcome.parsed cfg)
    (hstdout : cfg.stdout_flag = false)
    (hforce : cfg.forceOverwrite = false)
    (hout : cfg.outPath = some p)
    (hexists : env.fileExists p = true) :
    (Unseal.main env (o :: rest)).code = 1 ∧
    (Unseal.main env (o :: rest)).unsealCalled = false ∧
    (Unseal.main env (o :: rest)).wroteOutput = false := by
  have hm : Unseal.main env (o :: rest) = mainPost env cfg := by
    simp [Unseal.main, hparse]
  rw [hm]
  unfold mainPost
  by_cases hb1 : cfg.inPath = none ∨ (cfg.outPath = none ∧
      cfg.stdout_flag = false)
  · rw [if_pos hb1]
    exact ⟨rfl, rfl, rfl⟩
  rw [if_neg hb1]
  by_cases hb2 : env.inputPathInvalid (cfg.inPath.getD "") = true
  · rw [if_pos hb2]
    exact ⟨rfl, rfl, rfl⟩
  rw [if_neg hb2]
  by_cases hb3 : cfg.stdout_flag = false ∧
      env.outputPathInvalid (cfg.outPath.getD "") = true
  · rw [if_pos hb3]
    exact ⟨rfl, rfl, rfl⟩
  rw [if_neg hb3]
  rw [if_pos ⟨hstdout, hforce, by rw [hout]; exact hexists⟩]
  exact ⟨rfl, rfl, rfl⟩

/-- Witness for `unseal_no_overwrite`: `-i a -o b` with `b` reported as
an existing file. -/
theorem unseal_no_overwrite_witness :
    (Unseal.main ⟨fun _ => false, fun _ => false, fun _ => true, false⟩
        [CmdOpt.input "a", CmdOpt.output "b"]).code = 1 ∧
    (Unseal.main ⟨fun _ => false, fun _ => false, fun _ => true, false⟩
        [CmdOpt.input "a", CmdOpt.output "b"]).unsealCalled = false ∧
    (Unseal.main ⟨fun _ => false, fun _ => false, fun _ => true, false⟩
        [CmdOpt.input "a", CmdOpt.output "b"]).wroteOutput = false :=
  unseal_no_overwrite
    ⟨fun _ => false, fun _ => false, fun _ => true, false⟩
    (CmdOpt.input "a") [CmdOpt.output "b"]
    ⟨some "a", some "b", false, none, "", false, false⟩ "b"
    rfl rfl rfl rfl rfl
